import Mathlib

/-!
Verification development for the regulog log-analysis engine (src/regulog.py).

The Python source is shallowly embedded: pure computations become Lean
functions, object mutation becomes explicit state passing, Python
exceptions become the Except monad, and Python dictionaries become
insertion-ordered association lists.  Compiled regular expressions are
modelled abstractly: an event type carries matcher functions from strings
to optional match results (span plus named-group dictionary), mirroring
how the engine only ever calls search on a compiled pattern; path filters
are additionally modelled by a small regex AST with Python-style anchored
match and unanchored search semantics.  Embedded scripting hooks
(ExecOnInit/File/Match/Wrapup) are external collaborators executing
user-supplied code; they are modelled as absent (the None default), under
which the hook-execution step leaves all state unchanged.
-/

deriving instance DecidableEq for Except

/-- Python single-quote character, used inside diagnostic strings. -/
def pyQuote : String := String.mk [Char.ofNat 39]

/-- Lookup in an insertion-ordered association list (Python dict read). -/
def dictGet {α : Type} (d : List (String × α)) (k : String) : Option α :=
  match d with
  | [] => none
  | (k0, v) :: rest => if k0 = k then some v else dictGet rest k

/-- Membership test on dictionary keys (Python `k in d`). -/
def dictHas {α : Type} (d : List (String × α)) (k : String) : Bool :=
  (dictGet d k).isSome

/-- Write to an insertion-ordered association list (Python `d[k] = v`):
replaces the first binding of the key, or appends a fresh binding. -/
def dictSet {α : Type} (d : List (String × α)) (k : String) (v : α) :
    List (String × α) :=
  match d with
  | [] => [(k, v)]
  | (k0, v0) :: rest =>
    if k0 = k then (k0, v) :: rest else (k0, v0) :: dictSet rest k v

/-- Delete a key from a dictionary (Python `del d[k]`, key assumed present). -/
def dictDel {α : Type} (d : List (String × α)) (k : String) :
    List (String × α) :=
  match d with
  | [] => []
  | (k0, v0) :: rest => if k0 = k then rest else (k0, v0) :: dictDel rest k

/-- Value of a decimal digit character. -/
def digVal (c : Char) : Nat := c.toNat - 48

/-- Decimal digit test (Python str.isdigit on ASCII digits). -/
def isDig (c : Char) : Bool := 48 ≤ c.toNat ∧ c.toNat ≤ 57

/-- Accumulate the value of a digit string. -/
def digitsToNat (cs : List Char) : Nat :=
  cs.foldl (fun acc c => 10 * acc + digVal c) 0

/-- Parse a nonempty all-digit character list. -/
def digitsVal (cs : List Char) : Option Nat :=
  if cs ≠ [] ∧ cs.all isDig then some (digitsToNat cs) else none

/-- Python whitespace characters stripped by str.strip and int(). -/
def isPySpace (c : Char) : Bool :=
  c = ' ' ∨ c = Char.ofNat 9 ∨ c = Char.ofNat 10 ∨ c = Char.ofNat 13 ∨
  c = Char.ofNat 11 ∨ c = Char.ofNat 12

/-- Strip whitespace from both ends of a character list (str.strip). -/
def stripChars (cs : List Char) : List Char :=
  ((cs.dropWhile isPySpace).reverse.dropWhile isPySpace).reverse

/-- Python int() applied to a string: strips whitespace, accepts an
optional sign followed by decimal digits, raises (none) otherwise. -/
def pyInt (s : String) : Option Int :=
  match stripChars s.data with
  | '-' :: rest => (digitsVal rest).map (fun n => -(n : Int))
  | '+' :: rest => (digitsVal rest).map (fun n => (n : Int))
  | cs => (digitsVal cs).map (fun n => (n : Int))

/-- Zero-pad a natural number to the given width (datetime formatting). -/
def padNum (width : Nat) (n : Nat) : String :=
  let s := toString n
  String.mk (List.replicate (width - s.length) '0') ++ s

/-- Component of a path after the final slash (os.path.basename, posix). -/
def pyBasename (s : String) : String :=
  String.mk (s.data.foldl (fun acc c => if c = '/' then [] else acc ++ [c]) [])

/-- Join two path components (os.path.join, posix semantics). -/
def pathJoin (p : String) (name : String) : String :=
  if name.data.head? = some '/' then name
  else if p = "" then name
  else if p.data.getLast? = some '/' then p ++ name
  else p ++ "/" ++ name

/-- Remove every newline character (str.replace of a newline by nothing). -/
def dropNewlines (s : String) : String :=
  String.mk (s.data.filter (fun c => c ≠ Char.ofNat 10))

/-- Substring membership test used to state claims about raw event text. -/
def hasSubstr (needle hay : List Char) : Bool :=
  match hay with
  | [] => needle = []
  | _ :: rest => needle.isPrefixOf hay || hasSubstr needle rest

/-- Calendar timestamp with second precision, mirroring Python
datetime.datetime as used by the engine (microseconds are always zero). -/
structure DateTime where
  year : Nat
  month : Nat
  day : Nat
  hour : Nat
  minute : Nat
  second : Nat
  deriving DecidableEq

/-- Python datetime.datetime.min, the default event timestamp. -/
def dtMin : DateTime := ⟨1, 1, 1, 0, 0, 0⟩

/-- Lexicographic strict order on timestamps, as a proposition. -/
def dtLtP (a b : DateTime) : Prop :=
  a.year < b.year ∨
  (a.year = b.year ∧
    (a.month < b.month ∨
      (a.month = b.month ∧
        (a.day < b.day ∨
          (a.day = b.day ∧
            (a.hour < b.hour ∨
              (a.hour = b.hour ∧
                (a.minute < b.minute ∨
                  (a.minute = b.minute ∧ a.second < b.second)))))))))

instance (a b : DateTime) : Decidable (dtLtP a b) := by
  unfold dtLtP; infer_instance

/-- Lexicographic strict order on timestamps (Python datetime comparison). -/
def dtLt (a b : DateTime) : Bool := decide (dtLtP a b)

/-- Number of days of a month, with the Gregorian leap rule, as validated
by the Python datetime constructor. -/
def daysInMonth (y m : Nat) : Nat :=
  if m = 2 then
    if y % 4 = 0 ∧ (y % 100 ≠ 0 ∨ y % 400 = 0) then 29 else 28
  else if m = 4 ∨ m = 6 ∨ m = 9 ∨ m = 11 then 30
  else 31

/-- Python datetime.datetime constructor: validates component ranges and
raises ValueError (none) outside them. -/
def mkDatetime (y mo d h mi s : Int) : Option DateTime :=
  if 1 ≤ y ∧ y ≤ 9999 ∧ 1 ≤ mo ∧ mo ≤ 12 ∧ 1 ≤ d ∧
     d ≤ (daysInMonth y.toNat mo.toNat : Int) ∧
     0 ≤ h ∧ h ≤ 23 ∧ 0 ≤ mi ∧ mi ≤ 59 ∧ 0 ≤ s ∧ s ≤ 59 then
    some ⟨y.toNat, mo.toNat, d.toNat, h.toNat, mi.toNat, s.toNat⟩
  else none

/-- Render a timestamp as datetime.isoformat() does. -/
def dtIsoformat (t : DateTime) : String :=
  padNum 4 t.year ++ "-" ++ padNum 2 t.month ++ "-" ++ padNum 2 t.day ++
  "T" ++ padNum 2 t.hour ++ ":" ++ padNum 2 t.minute ++ ":" ++
  padNum 2 t.second

/-- Render the date part as str(datetime.date()) does. -/
def dtDateStr (t : DateTime) : String :=
  padNum 4 t.year ++ "-" ++ padNum 2 t.month ++ "-" ++ padNum 2 t.day

/-- Render the time part as str(datetime.time()) does. -/
def dtTimeStr (t : DateTime) : String :=
  padNum 2 t.hour ++ ":" ++ padNum 2 t.minute ++ ":" ++ padNum 2 t.second

/-- Result of a successful regex search: the matched span inside the
searched string and the full named-group dictionary (groupdict), where a
group that did not participate in the match carries none. -/
structure MatchRes where
  spanStart : Nat
  spanStop : Nat
  groups : List (String × Option String)
  deriving DecidableEq

/-- Field values are strings or Python None (the inner Option). -/
abbrev FieldVal := Option String

/-- Event extracted from a log line window.  System fields (sfields) and
user fields (ufields) are the two dictionaries of the Python Event class;
the event type is referenced by name, its compiled patterns live in the
EventType registry passed explicitly where the Python code dereferences
self.eventType. -/
structure Event where
  etName : String
  sfields : List (String × FieldVal)
  ufields : List (String × FieldVal)
  timestamp : DateTime
  seqnum : Int
  timestampSpan : Nat × Nat
  deriving DecidableEq

/-- Event type definition after compilation.  The three matcher functions
model the compiled regular expressions through their only used interface,
regex search; the four hook bodies are modelled as absent. -/
structure EventType where
  name : String
  description : String
  multilineCount : Nat
  caseSensitive : Bool
  immediate : Bool
  displayOnMatch : Option String
  displayIfChanged : Bool
  searchFilenameFn : String → Option MatchRes
  searchTextFn : String → Option MatchRes
  searchTimestampFn : String → Option MatchRes

/-- Python truthiness of an optional string (None and the empty string are
falsy). -/
def pyTruthy (s : Option String) : Bool :=
  match s with
  | none => false
  | some t => t ≠ ""

/-- Event.setRaw: stores the raw text system field. -/
def Event.setRaw (e : Event) (raw : String) : Event :=
  { e with sfields := dictSet e.sfields "_raw" (some raw) }

/-- Event.setLinenum: stores the stringified line number system field. -/
def Event.setLinenum (e : Event) (linenum : Int) : Event :=
  { e with sfields := dictSet e.sfields "_line_number" (some (toString linenum)) }

/-- Event.setSeqnum: stores the sequence number and its string field. -/
def Event.setSeqnum (e : Event) (num : Int) : Event :=
  { e with seqnum := num
           sfields := dictSet e.sfields "_sequence_number" (some (toString num)) }

/-- Event.setTimestamp: stores the timestamp and its derived string
fields; the minimum representable time when no timestamp is given. -/
def Event.setTimestamp (e : Event) (t : Option DateTime) : Event :=
  let ts := t.getD dtMin
  { e with timestamp := ts
           sfields :=
             dictSet
               (dictSet
                 (dictSet e.sfields "_timestamp" (some (dtIsoformat ts)))
                 "_date" (some (dtDateStr ts)))
               "_time" (some (dtTimeStr ts)) }

/-- Event construction (Event.__init__): standard fields, default
sequence number -1, minimum timestamp, empty timestamp span. -/
def Event.init (et : EventType) (path : String) : Event :=
  let e : Event :=
    { etName := et.name
      sfields :=
        [("_name", some et.name),
         ("_description", some (if et.description = "" then "" else et.description)),
         ("_source_path", some path),
         ("_source_filename", some (pyBasename path)),
         ("_display_on_match", none)]
      ufields := [("_changed_fields", none)]
      timestamp := dtMin
      seqnum := 0
      timestampSpan := (0, 0) }
  (Event.setTimestamp (Event.setSeqnum e (-1)) none)

/-- Event.set_field: refuses any name already present among the system
fields, otherwise writes the user field. -/
def Event.set_field (e : Event) (name : String) (value : FieldVal) :
    Except String Event :=
  if dictHas e.sfields name then
    .error ("Overwriting " ++ name ++ " system field not allowed")
  else
    .ok { e with ufields := dictSet e.ufields name value }

/-- Event.add_field: refuses any name already present among system or
user fields, otherwise writes the user field. -/
def Event.add_field (e : Event) (name : String) (value : FieldVal) :
    Except String Event :=
  if dictHas e.sfields name ∨ dictHas e.ufields name then
    .error ("Field " ++ name ++ " already exists")
  else
    .ok { e with ufields := dictSet e.ufields name value }

/-- Event.set_fields: applies set_field under try/except pass, so a
refused name leaves the event untouched. -/
def Event.set_fields (e : Event) (d : List (String × FieldVal)) : Event :=
  d.foldl
    (fun ev kv =>
      match Event.set_field ev kv.1 kv.2 with
      | .ok ev2 => ev2
      | .error _ => ev)
    e

/-- Event.add_fields: applies add_field under try/except pass. -/
def Event.add_fields (e : Event) (d : List (String × FieldVal)) : Event :=
  d.foldl
    (fun ev kv =>
      match Event.add_field ev kv.1 kv.2 with
      | .ok ev2 => ev2
      | .error _ => ev)
    e

/-- Names of the virtual fields recognized by has_field and get_field. -/
def virtualFieldNames : List String :=
  ["_user_fields", "_system_fields", "_flat", "_core", "_flat_core"]

/-- Event.has_field: true for virtual field names and for names present
in either dictionary. -/
def Event.has_field (e : Event) (name : String) : Bool :=
  virtualFieldNames.contains name ∨ dictHas e.ufields name ∨
  dictHas e.sfields name

/-- Python repr of a field dictionary, used by the _user_fields and
_system_fields virtual fields (str of a dict; Python 2 dictionary order
is modelled as insertion order). -/
def dictRepr (d : List (String × FieldVal)) : String :=
  let item := fun (kv : String × FieldVal) =>
    pyQuote ++ kv.1 ++ pyQuote ++ ": " ++
    (match kv.2 with
     | none => "None"
     | some v => pyQuote ++ v ++ pyQuote)
  "\x7b" ++ String.intercalate ", " (d.map item) ++ "\x7d"

/-- Reads the _raw system field for the virtual-field computations; a
missing binding or a stored None raises (KeyError / attribute error). -/
def Event.rawString (e : Event) : Except String String :=
  match dictGet e.sfields "_raw" with
  | some (some raw) => .ok raw
  | some none => .error "_raw is None"
  | none => .error "KeyError: _raw"

/-- Event.get_field: user fields first, then system fields, then the five
virtual fields, finally a RuntimeError; _core removes the timestamp span
from the raw text, _flat variants remove newlines. -/
def Event.get_field (e : Event) (name : String) : Except String FieldVal :=
  match dictGet e.ufields name with
  | some v => .ok v
  | none =>
    match dictGet e.sfields name with
    | some v => .ok v
    | none =>
      if name = "_user_fields" then .ok (some (dictRepr e.ufields))
      else if name = "_system_fields" then .ok (some (dictRepr e.sfields))
      else if name = "_flat" then do
        let raw ← Event.rawString e
        .ok (some (dropNewlines raw))
      else if name = "_core" then do
        let raw ← Event.rawString e
        .ok (some (String.mk (raw.data.take e.timestampSpan.1 ++
                              raw.data.drop e.timestampSpan.2)))
      else if name = "_flat_core" then do
        let raw ← Event.rawString e
        .ok (some (dropNewlines (String.mk
              (raw.data.take e.timestampSpan.1 ++
               raw.data.drop e.timestampSpan.2))))
      else .error ("Field " ++ name ++ " not found")

/-- Event.parseText: replaces the whole user-field dictionary by the
groupdict of the text match (an absent match result recomputes it from
the raw field, asserting success). -/
def Event.parseText (e : Event) (et : EventType) (textRexResult : Option MatchRes) :
    Except String Event :=
  match textRexResult with
  | some r => .ok { e with ufields := r.groups }
  | none => do
    let raw ← Event.rawString e
    match et.searchTextFn raw with
    | some r => .ok { e with ufields := r.groups }
    | none => .error "AssertionError: text regex does not match"

/-- One-letter timestamp component names accepted by parseTimestamp. -/
def tsLetter (c : Char) : Bool :=
  c = 'Y' ∨ c = 'M' ∨ c = 'D' ∨ c = 'h' ∨ c = 'm' ∨ c = 's'

/-- Selection loop of parseTimestamp: a group named _X or _Xd (X a
component letter, d a decimal digit) with a nonempty captured value
records its key under the component letter; later keys overwrite. -/
def buildTsNames (groups : List (String × Option String)) :
    List (String × String) :=
  groups.foldl
    (fun names kv =>
      match kv.1.data, kv.2 with
      | ['_', c], some s =>
        if s ≠ "" ∧ tsLetter c then dictSet names (String.mk [c]) kv.1 else names
      | ['_', c, d], some s =>
        if s ≠ "" ∧ tsLetter c ∧ isDig d then dictSet names (String.mk [c]) kv.1
        else names
      | _, _ => names)
    []

/-- Captured text of a group selected by buildTsNames (always a nonempty
string for recorded keys; the defaults are unreachable there). -/
def tsGroupVal (groups : List (String × Option String)) (k : String) : String :=
  match dictGet groups k with
  | some (some s) => s
  | _ => ""

/-- English month abbreviations of parseTimestamp. -/
def monthsTable : List (String × Nat) :=
  [("JAN", 1), ("FEB", 2), ("MAR", 3), ("APR", 4), ("MAY", 5), ("JUN", 6),
   ("JUL", 7), ("AUG", 8), ("SEP", 9), ("OCT", 10), ("NOV", 11), ("DEC", 12)]

/-- Python int() raising ValueError on a non-numeric string. -/
def pyIntE (s : String) : Except String Int :=
  match pyInt s with
  | some n => .ok n
  | none => .error ("ValueError: invalid literal for int(): " ++ s)

/-- Month resolution of parseTimestamp: a value of at most two characters
parses numerically, a longer one resolves its first three letters,
upper-cased, through the English month table (KeyError if absent). -/
def monthOfField (m : String) : Except String Int :=
  if m.length ≤ 2 then pyIntE m
  else
    match dictGet monthsTable (String.mk ((m.data.take 3).map Char.toUpper)) with
    | some n => .ok (n : Int)
    | none => .error ("KeyError: " ++ String.mk ((m.data.take 3).map Char.toUpper))

/-- Year rule of parseTimestamp: a parsed year below 100 has 2000 added. -/
def yearOfField (y : Int) : Int := if y < 100 then y + 2000 else y

/-- Tag an exception with the event state at the point of raising. -/
def liftErr {α : Type} (e : Event) : Except String α → Except (Event × String) α
  | .ok a => .ok a
  | .error m => .error (e, m)

/-- Final loop of parseTimestamp: every captured group whose name does
not start with an underscore is added as a user field; add_field
exceptions propagate with the partially updated event. -/
def addTsUserFields (e : Event) (groups : List (String × Option String)) :
    Except (Event × String) Event :=
  match groups with
  | [] => .ok e
  | (k, v) :: rest =>
    match v, k.data.head? with
    | some s, some c =>
      if c ≠ '_' then
        match Event.add_field e k (some s) with
        | .ok e2 => addTsUserFields e2 rest
        | .error m => .error (e, m)
      else addTsUserFields e rest
    | _, _ => addTsUserFields e rest

/-- Event.parseTimestamp: runs the timestamp pattern on the given text
(falling back to the raw field when the text is absent or empty), selects
component groups, derives year/month/second with their special rules,
validates through the datetime constructor, then stores the timestamp,
its span, and the auxiliary non-underscore groups as user fields.  The
wall clock consulted when both the year group and the source time are
missing is threaded as the explicit nowYear parameter. -/
def Event.parseTimestamp (e : Event) (et : EventType)
    (alternativeText : Option String) (sourceTime : Option DateTime)
    (nowYear : Nat) : Except (Event × String) Event := do
  let text ← liftErr e
    (match alternativeText with
     | some t => if t = "" then Event.rawString e else .ok t
     | none => Event.rawString e)
  match et.searchTimestampFn text with
  | none => .error (e, "Timestamp regex does not match")
  | some ts => do
    let tsfields := ts.groups
    let names := buildTsNames tsfields
    if names.length < 4 then .error (e, "Not enough timestamp fields")
    else do
      let year ← (match dictGet names "Y" with
        | some k => (liftErr e (pyIntE (tsGroupVal tsfields k))).map yearOfField
        | none =>
          .ok (match sourceTime with
               | some t => (t.year : Int)
               | none => (nowYear : Int)))
      let mkey ← (match dictGet names "M" with
        | some k => .ok k
        | none => Except.error (e, "KeyError: M"))
      let month ← liftErr e (monthOfField (tsGroupVal tsfields mkey))
      let second ← (match dictGet names "s" with
        | some k => liftErr e (pyIntE (tsGroupVal tsfields k))
        | none => .ok 0)
      let dkey ← (match dictGet names "D" with
        | some k => .ok k
        | none => Except.error (e, "KeyError: D"))
      let day ← liftErr e (pyIntE (tsGroupVal tsfields dkey))
      let hkey ← (match dictGet names "h" with
        | some k => .ok k
        | none => Except.error (e, "KeyError: h"))
      let hour ← liftErr e (pyIntE (tsGroupVal tsfields hkey))
      let minkey ← (match dictGet names "m" with
        | some k => .ok k
        | none => Except.error (e, "KeyError: m"))
      let minute ← liftErr e (pyIntE (tsGroupVal tsfields minkey))
      match mkDatetime year month day hour minute second with
      | none => .error (e, "ValueError: invalid datetime components")
      | some dt =>
        let e1 := Event.setTimestamp e (some dt)
        let e2 := { e1 with timestampSpan := (ts.spanStart, ts.spanStop) }
        addTsUserFields e2 tsfields

/-- Event store of one search run: per-type lists keyed by event type
name, the flat insertion sequence, and the running sequence number. -/
structure EventSet where
  byName : List (String × List Event)
  sequence : List Event
  curSeqnum : Int
  deriving DecidableEq

/-- EventSet construction from the registry keys. -/
def mkEventSet (typeNames : List String) : EventSet :=
  { byName := typeNames.map (fun k => (k, [])),
    sequence := [],
    curSeqnum := 0 }

/-- EventSet.add_event: stamps the running sequence number on the event,
increments it, and appends the event to the per-type list (KeyError when
the type name is not registered) and to the flat sequence. -/
def EventSet.add_event (s : EventSet) (e : Event) :
    Except String (EventSet × Event) :=
  let e2 := Event.setSeqnum e s.curSeqnum
  match dictGet s.byName e2.etName with
  | none => .error ("KeyError: " ++ e2.etName)
  | some l =>
    .ok ({ byName := dictSet s.byName e2.etName (l ++ [e2]),
           sequence := s.sequence ++ [e2],
           curSeqnum := s.curSeqnum + 1 }, e2)

/-- Reference point of a backward query: Python dispatches on hasattr; a
datetime (ts) exposes utcfromtimestamp but, in Python 2, no timestamp
attribute, while an event (ev) exposes both timestamp and seqnum. -/
inductive BeforeArg where
  | ts : DateTime → BeforeArg
  | ev : Event → BeforeArg

/-- Exclusion test of the before criterion in get_events: an event
reference excludes candidates with a later timestamp or an equal-or-
greater sequence number; a plain timestamp excludes only candidates with
a strictly later timestamp. -/
def beforeExcludes (b : BeforeArg) (e : Event) : Bool :=
  match b with
  | .ev r => dtLt r.timestamp e.timestamp || decide (r.seqnum ≤ e.seqnum)
  | .ts t => dtLt t e.timestamp

/-- Field criterion of get_events: every requested key must exist on the
event and carry the requested value in whichever dictionary holds it. -/
def fieldsOk (fields : List (String × FieldVal)) (e : Event) : Bool :=
  fields.all (fun kv =>
    !((!(dictHas e.sfields kv.1) && !(dictHas e.ufields kv.1)) ||
      (dictHas e.ufields kv.1 && decide (dictGet e.ufields kv.1 ≠ some kv.2)) ||
      (dictHas e.sfields kv.1 && decide (dictGet e.sfields kv.1 ≠ some kv.2))))

/-- Combined match test of one get_events candidate. -/
def eventMatches (name : Option String) (fields : Option (List (String × FieldVal)))
    (before : Option BeforeArg) (e : Event) : Bool :=
  (match name with | some n => e.etName == n | none => true) &&
  (match fields with | some fs => fieldsOk fs e | none => true) &&
  (match before with | some b => !(beforeExcludes b e) | none => true)

/-- Yield loop of get_events: emits matching events in list order and
stops once the match counter reaches a positive limit. -/
def collectMatches (p : Event → Bool) (limit : Nat) :
    List Event → Nat → List Event
  | [], _ => []
  | e :: rest, num =>
    if p e then
      if num + 1 = limit then [e]
      else e :: collectMatches p limit rest (num + 1)
    else collectMatches p limit rest num

/-- EventSet.get_events: iterates newest-to-oldest over the flat sequence
(or the per-type list when a name is given, after asserting the name is
known) and yields the events passing the name/fields/before criteria,
bounded by limit when positive. -/
def EventSet.get_events (s : EventSet) (name : Option String)
    (fields : Option (List (String × FieldVal))) (before : Option BeforeArg)
    (limit : Nat) : Except String (List Event) :=
  match name with
  | some n =>
    match dictGet s.byName n with
    | some l =>
      .ok (collectMatches (eventMatches name fields before) limit l.reverse 0)
    | none =>
      .error ("Given event name " ++ n ++ " is not known in event set")
  | none =>
    .ok (collectMatches (eventMatches name fields before) limit
          s.sequence.reverse 0)

/-- EventSet.get_event: first result of get_events with limit 1, if any. -/
def EventSet.get_event (s : EventSet) (name : Option String)
    (fields : Option (List (String × FieldVal))) (before : Option BeforeArg) :
    Except String (Option Event) :=
  (s.get_events name fields before 1).map List.head?

/-- Chronological comparison of Event.__cmp__: by timestamp, then by
sequence number.  The Python comparison falls through without a result
when both components are equal; a stable sort over it is modelled by a
stable insertion sort over this reflexive completion. -/
def eventLe (a b : Event) : Bool :=
  dtLt a.timestamp b.timestamp ||
  (a.timestamp == b.timestamp && decide (a.seqnum ≤ b.seqnum))

/-- Stable insertion step: the new element passes every strictly smaller
element and settles before the first element it is less-or-equal to. -/
def stInsert {α : Type} (le : α → α → Bool) (e : α) : List α → List α
  | [] => [e]
  | x :: xs => if le e x then e :: x :: xs else x :: stInsert le e xs

/-- Stable sort modelling Python list.sort over a total comparison. -/
def stableSort {α : Type} (le : α → α → Bool) : List α → List α
  | [] => []
  | x :: xs => stInsert le x (stableSort le xs)

/-- Sorted flat sequence rebuilt by sortEvents before renumbering: each
per-type list is sorted, the sorted lists are concatenated in dictionary
order, and the concatenation is sorted again. -/
def EventSet.sortPre (s : EventSet) : List Event :=
  stableSort eventLe ((s.byName.map (fun kv => stableSort eventLe kv.2)).flatten)

/-- Renumbering loop of sortEvents: position i receives sequence number i. -/
def renumberFrom (i : Int) : List Event → List Event
  | [] => []
  | e :: rest => Event.setSeqnum e i :: renumberFrom (i + 1) rest

/-- EventSet.sortEvents: sorts each per-type list and the rebuilt flat
sequence chronologically, then reassigns sequence numbers 0..N-1 in the
new order; the in-place renumbering is visible through the per-type
lists, modelled by giving each stored event the number of its position in
the sorted sequence.  Returns the new store and the new sequence (the
Python method returns self.sequence). -/
def EventSet.sortEvents (s : EventSet) : EventSet × List Event :=
  let seq2 := EventSet.sortPre s
  let seq3 := renumberFrom 0 seq2
  let renum := fun (e : Event) =>
    match seq2.indexOf? e with
    | some i => Event.setSeqnum e (i : Int)
    | none => e
  ({ byName := s.byName.map (fun kv => (kv.1, (stableSort eventLe kv.2).map renum)),
     sequence := seq3,
     curSeqnum := s.curSeqnum }, seq3)

/-- Replace the literal two-character sequence backslash-t by a tab
(str.replace, left to right, non-overlapping). -/
def replaceEscTab : List Char → List Char
  | '\\' :: 't' :: rest => Char.ofNat 9 :: replaceEscTab rest
  | c :: rest => c :: replaceEscTab rest
  | [] => []

/-- Replace the literal two-character sequence backslash-n by a newline. -/
def replaceEscNl : List Char → List Char
  | '\\' :: 'n' :: rest => Char.ofNat 10 :: replaceEscNl rest
  | c :: rest => c :: replaceEscNl rest
  | [] => []

/-- Placeholder body scan: a nonempty run of non-brace characters closed
by a closing brace, as matched by the placeholder regex of replaceFields. -/
def scanBody (cs : List Char) : Option (List Char × List Char) :=
  let body := cs.takeWhile (fun c => c ≠ '{' ∧ c ≠ '}')
  match cs.dropWhile (fun c => c ≠ '{' ∧ c ≠ '}') with
  | '}' :: r => if body = [] then none else some (body, r)
  | _ => none

/-- Leftmost non-overlapping split of a string around brace placeholders,
as produced by re.split with a capturing placeholder group: even
positions are literal text, odd positions placeholders (braces
included).  The fuel argument bounds the recursion by the input length;
it is never exhausted when called with length + 1. -/
def splitPH (fuel : Nat) (acc : List Char) (cs : List Char) :
    List (List Char) :=
  match fuel with
  | 0 => [acc.reverse ++ cs]
  | fuel + 1 =>
    match cs with
    | [] => [acc.reverse]
    | c :: rest =>
      if c = '{' then
        match scanBody rest with
        | some (body, rest2) =>
          acc.reverse :: ('{' :: (body ++ ['}'])) :: splitPH fuel [] rest2
        | none => splitPH fuel (c :: acc) rest
      else splitPH fuel (c :: acc) rest

/-- Split of the template into literal and placeholder parts. -/
def pySplitPlaceholders (s : String) : List (List Char) :=
  splitPH (s.data.length + 1) [] s.data

/-- Python str.partition on a single-character separator: text before the
first occurrence, whether the separator was found, text after it. -/
def pyPartition (sep : Char) (cs : List Char) : List Char × Bool × List Char :=
  match cs with
  | [] => ([], false, [])
  | c :: rest =>
    if c = sep then ([], true, rest)
    else
      let r := pyPartition sep rest
      (c :: r.1, r.2.1, r.2.2)

/-- Field extraction from an event found by a cross-event lookup: the
default diagnostic when no event was found, the value when the field is
present, a diagnostic otherwise. -/
def extractFrom (evOpt : Option Event) (fieldname : String) :
    Except String FieldVal :=
  match evOpt with
  | none => .ok (some "NO MATCHING EVENT")
  | some ev =>
    if Event.has_field ev fieldname then Event.get_field ev fieldname
    else .ok (some ("FIELD " ++ pyQuote ++ fieldname ++ pyQuote ++
                    " NOT IN FOUND EVENT"))

/-- Resolution of one brace placeholder of replaceFields: a plain local
field read, or a cross-event lookup optionally constrained by an
equality condition; unresolved slots become diagnostic strings.  The
comparison-field diagnostic inserts fieldname, the text before the at
sign, exactly as the source does. -/
def resolvePlaceholder (e : Event) (events : EventSet) (ph : List Char) :
    Except String FieldVal :=
  let src := stripChars (ph.drop 1).dropLast
  let p1 := pyPartition '@' src
  let fieldname := String.mk p1.1
  if p1.2.1 = false then
    if Event.has_field e fieldname then Event.get_field e fieldname
    else .ok (some ("FIELD " ++ pyQuote ++ fieldname ++ pyQuote ++ " NOT FOUND"))
  else
    let p2 := pyPartition ':' p1.2.2
    let evname := String.mk p2.1
    if dictHas events.byName evname = false then
      .ok (some ("EVENT TYPE " ++ pyQuote ++ evname ++ pyQuote ++ " NOT FOUND"))
    else
      if p2.2.1 = false then
        match events.get_event (some evname) none (some (BeforeArg.ev e)) with
        | .error m => .error m
        | .ok evOpt => extractFrom evOpt fieldname
      else
        let p3 := pyPartition '=' p2.2.2
        if p3.2.1 = false then
          .ok (some ("LOOKUP CONDITION " ++ pyQuote ++ String.mk p2.2.2 ++
                     pyQuote ++ " NOT VALID"))
        else if Event.has_field e (String.mk p3.2.2) = false then
          .ok (some ("COMPARISON FIELD " ++ pyQuote ++ fieldname ++ pyQuote ++
                     " NOT FOUND"))
        else
          match Event.get_field e (String.mk p3.2.2) with
          | .error m => .error m
          | .ok cval =>
            match events.get_event (some evname) (some [(String.mk p3.1, cval)])
                    (some (BeforeArg.ev e)) with
            | .error m => .error m
            | .ok evOpt => extractFrom evOpt fieldname

/-- Rendering loop of replaceFields over the alternating placeholder and
literal parts: each placeholder resolves independently, a resolved None
renders as N/A. -/
def renderParts (e : Event) (events : EventSet) :
    List (List Char) → Except String String
  | [] => .ok ""
  | [_] => .ok ""
  | ph :: lit :: rest => do
    let trans ← resolvePlaceholder e events ph
    let t := match trans with
      | none => "N/A"
      | some v => v
    let tail ← renderParts e events rest
    .ok (t ++ String.mk lit ++ tail)

/-- Event.replaceFields: substitutes escape sequences, splits the
template around brace placeholders and resolves each one against the
current event and the event store. -/
def Event.replaceFields (e : Event) (text : String) (events : EventSet) :
    Except String String :=
  let res := String.mk (replaceEscNl (replaceEscTab text.data))
  match pySplitPlaceholders res with
  | [] => .ok ""
  | first :: rest =>
    match renderParts e events rest with
    | .error m => .error m
    | .ok tail => .ok (String.mk first ++ tail)

/-- Changed-fields computation of parseDisplay: comma-joined names of the
user fields absent from, or differing on, the previous event. -/
def changedFieldsStr (cur prevU : List (String × FieldVal)) : String :=
  cur.foldl
    (fun res kv =>
      if ¬ dictHas prevU kv.1 ∨ dictGet prevU kv.1 ≠ some kv.2 then
        res ++ (if res.length > 0 then "," else "") ++ kv.1
      else res)
    ""

/-- Event.parseDisplay: stores the changed-fields system field (None when
nothing changed or no previous event) and, when the event type has a
truthy display template, the rendered display string. -/
def Event.parseDisplay (e : Event) (et : EventType)
    (previousEvent : Option Event) (events : EventSet) :
    Except String Event :=
  let res := match previousEvent with
    | none => ""
    | some pev => changedFieldsStr e.ufields pev.ufields
  let cf : FieldVal := if res.length > 0 then some res else none
  let e1 := { e with sfields := dictSet e.sfields "_changed_fields" cf }
  if pyTruthy et.displayOnMatch then
    match Event.replaceFields e1 (et.displayOnMatch.getD "") events with
    | .error m => .error m
    | .ok d =>
      .ok { e1 with sfields := dictSet e1.sfields "_display_on_match" (some d) }
  else .ok e1

/-- Per-run and per-file search state of EventSearchContext: the run
configuration and registry, the current source file, the bounded line
backlog (newest first), the unfinished-event map, the line counter, the
shared event-lines counter, and the event store.  The wall-clock year
used by parseTimestamp when no year is available is carried as nowYear. -/
structure SearchContext where
  verbosity : Nat
  chronological : Bool
  nowYear : Nat
  eventTypes : List (String × EventType)
  searchFilePath : String
  searchFileTime : Option DateTime
  searchEventTypes : List EventType
  lines : List String
  unfinishedEvents : List (String × Event)
  linenum : Int
  eventLinesCount : Int
  events : EventSet
  numFoundEvents : Nat
  numProcessedLines : Nat

/-- EventSearchContext construction: records the configuration and
creates the event store over the registry keys (hook execution on Init
is absent in the model). -/
def mkSearchContext (verbosity : Nat) (eventTypes : List (String × EventType))
    (chronological : Bool) (nowYear : Nat) : SearchContext :=
  { verbosity := verbosity
    chronological := chronological
    nowYear := nowYear
    eventTypes := eventTypes
    searchFilePath := ""
    searchFileTime := none
    searchEventTypes := []
    lines := []
    unfinishedEvents := []
    linenum := 0
    eventLinesCount := 0
    events := mkEventSet (eventTypes.map (fun kv => kv.1))
    numFoundEvents := 0
    numProcessedLines := 0 }

/-- Registry lookup for the event type of an event. -/
def SearchContext.findType (ctx : SearchContext) (name : String) :
    Option EventType :=
  dictGet ctx.eventTypes name

/-- EventSearchContext.checkSource: records the file path and time,
collects the event types whose filename pattern matches the basename of
the path, and when at least one matches resets the backlog, the
unfinished-event map and the line counter. -/
def SearchContext.checkSource (ctx : SearchContext) (filePath : String)
    (fileTime : Option DateTime) : Bool × SearchContext :=
  let sets := ctx.eventTypes.filterMap
    (fun kv =>
      if (kv.2.searchFilenameFn (pyBasename filePath)).isSome then some kv.2
      else none)
  let ctx1 := { ctx with searchFilePath := filePath
                         searchFileTime := fileTime
                         searchEventTypes := sets }
  if sets.length > 0 then
    (true, { ctx1 with lines := [], unfinishedEvents := [], linenum := 0 })
  else (false, ctx1)

/-- Oldest-first join of the most recent lines: the accumulation loop of
getMultiline builds the newest line last, so the result is the reversed
take of the backlog joined by newlines. -/
def joinLinesRev : List String → String
  | [] => ""
  | [l] => l
  | l :: ls => joinLinesRev ls ++ "\n" ++ l

/-- EventSearchContext.getMultiline: string of the most recent num
backlog lines, oldest first; a non-positive count yields the empty
string, mirroring the empty Python range. -/
def SearchContext.getMultiline (ctx : SearchContext) (num : Int) : String :=
  joinLinesRev (ctx.lines.take num.toNat)

/-- ExecOnMatch hook execution: hook bodies are modelled as absent (the
None default), under which Python executes no code and the event is
unchanged. -/
def executeMatchHook (e : Event) : Event := e

/-- Replace the first occurrence of an event in a list, modelling an
in-place mutation of an object aliased by the list. -/
def replaceInList (old new : Event) : List Event → List Event
  | [] => []
  | x :: rest =>
    if x = old then new :: rest else x :: replaceInList old new rest

/-- Propagate an in-place event mutation into both store indices. -/
def EventSet.replaceEvent (s : EventSet) (old new : Event) : EventSet :=
  { s with sequence := replaceInList old new s.sequence
           byName := s.byName.map (fun kv => (kv.1, replaceInList old new kv.2)) }

/-- Second-to-last element of a list (Python index -2). -/
def secondLast {α : Type} (l : List α) : Option α :=
  if l.length > 1 then l.reverse.tail.head? else none

/-- EventSearchContext.storeNewEvent: packs the event raw text from the
backlog, sets the line number to the counter minus the span length plus
one, inserts the event into the store, and for immediate or
non-chronological processing runs the match hook and renders the display
string against the previous event of the same type (skipped if a hook
deleted the event); the display mutation is propagated to the store. -/
def SearchContext.storeNewEvent (ctx : SearchContext) (ev : Event)
    (eventLinesCount : Int) : Except String (SearchContext × Event) := do
  let ev1 := Event.setRaw ev (ctx.getMultiline eventLinesCount)
  let ev2 := Event.setLinenum ev1 (ctx.linenum - (eventLinesCount + 1))
  let r ← ctx.events.add_event ev2
  let ctx1 := { ctx with events := r.1, numFoundEvents := ctx.numFoundEvents + 1 }
  let ev3 := r.2
  match ctx1.findType ev3.etName with
  | none => .error ("KeyError: " ++ ev3.etName)
  | some et =>
    if et.immediate || !ctx1.chronological then
      let ev4 := executeMatchHook ev3
      let lst := (dictGet ctx1.events.byName ev4.etName).getD []
      if lst.contains ev4 then do
        let pev := secondLast lst
        let ev5 ← Event.parseDisplay ev4 et pev ctx1.events
        .ok ({ ctx1 with events := ctx1.events.replaceEvent ev4 ev5 }, ev5)
      else .ok (ctx1, ev4)
    else .ok (ctx1, ev3)

/-- Unfinished-event resolution loop of checkLine: iterates a snapshot of
the unfinished map; an event fires when the new line is the end-of-file
sentinel or matches its event-type timestamp pattern, in which case it is
completed with the shared span counter, stored, removed from the map and
yielded. -/
def finalizeLoop (line : Option String) :
    List (String × Event) → SearchContext →
    Except String (List Event × SearchContext)
  | [], ctx => .ok ([], ctx)
  | (_, ev) :: rest, ctx =>
    match ctx.findType ev.etName with
    | none => .error ("KeyError: " ++ ev.etName)
    | some et =>
      let fire := match line with
        | none => true
        | some l => (et.searchTimestampFn l).isSome
      if fire then do
        let r ← ctx.storeNewEvent ev ctx.eventLinesCount
        let ctx2 := { r.1 with
          unfinishedEvents := dictDel r.1.unfinishedEvents ev.etName }
        let rTail ← finalizeLoop line rest ctx2
        .ok (r.2 :: rTail.1, rTail.2)
      else finalizeLoop line rest ctx

/-- Backward timestamp scan of checkLine: tries parseTimestamp on each
backlog line from newest to oldest, counting the lines consumed; a
failure keeps the (possibly partially updated) event and moves on, and
exhausting the backlog resets the counter to one, as the for-else does. -/
def tsSearchLoop (et : EventType) (sourceTime : Option DateTime) (nowYear : Nat) :
    List String → Event → Int → Bool × Int × Event
  | [], ev, _ => (false, 1, ev)
  | l :: rest, ev, elc =>
    match Event.parseTimestamp ev et (some l) sourceTime nowYear with
    | .ok ev2 => (true, elc, ev2)
    | .error r => tsSearchLoop et sourceTime nowYear rest r.1 (elc + 1)

/-- New-event detection loop of checkLine: for each event type with no
unfinished instance, runs the text pattern over the window (the line
alone for window one, the joined backlog otherwise), accepts only a
match ending inside the newest line, populates the event from the match,
searches the backlog for a timestamp, and either stores the event at
once (no boundary wait requested, or no timestamp found; at verbosity
two and above an extra diagnostic parse over the whole window is
attempted first, faithfully keeping its possible mutation) or stages it
as unfinished. -/
def newEventsLoop (l : String) (finishEvents : Bool) :
    List EventType → SearchContext →
    Except String (List Event × SearchContext)
  | [], ctx => .ok ([], ctx)
  | evt :: rest, ctx =>
    if dictHas ctx.unfinishedEvents evt.name then
      newEventsLoop l finishEvents rest ctx
    else
      let multiline := if evt.multilineCount = 1 then l
                       else ctx.getMultiline (evt.multilineCount : Int)
      match evt.searchTextFn multiline with
      | some r =>
        if (multiline.length : Int) - (r.spanStop : Int) < (l.length : Int) then do
          let ev0 := Event.init evt ctx.searchFilePath
          let ev1 ← Event.parseText ev0 evt (some r)
          let sr := tsSearchLoop evt ctx.searchFileTime ctx.nowYear ctx.lines ev1 1
          let found := sr.1
          let elc := sr.2.1
          let ctx1 := { ctx with eventLinesCount := elc }
          let ev3 := if ¬ found ∧ ctx1.verbosity ≥ 2 then
              match Event.parseTimestamp sr.2.2 evt (some multiline)
                      ctx1.searchFileTime ctx1.nowYear with
              | .ok e2 => e2
              | .error rr => rr.1
            else sr.2.2
          if ¬ finishEvents ∨ ¬ found then do
            let st ← ctx1.storeNewEvent ev3 elc
            let rTail ← newEventsLoop l finishEvents rest st.1
            .ok (st.2 :: rTail.1, rTail.2)
          else
            let unf := dictSet ctx1.unfinishedEvents evt.name ev3
            newEventsLoop l finishEvents rest { ctx1 with unfinishedEvents := unf }
        else newEventsLoop l finishEvents rest ctx
      | none => newEventsLoop l finishEvents rest ctx

/-- EventSearchContext.checkLine: resolves unfinished events against the
new line (or the end-of-file sentinel None), bumps the shared span
counter when any were pending, then for a real line pushes it into the
bounded backlog (capacity 100), advances the line counter and detects
new events; returns the finalized events in yield order together with
the updated state. -/
def SearchContext.checkLine (ctx : SearchContext) (line : Option String)
    (finishEvents : Bool) : Except String (List Event × SearchContext) := do
  let hadUnfinished := ctx.unfinishedEvents.length > 0
  let r1 ← if hadUnfinished then finalizeLoop line ctx.unfinishedEvents ctx
           else .ok ([], ctx)
  let ctxB := if hadUnfinished then
      { r1.2 with eventLinesCount := r1.2.eventLinesCount + 1 }
    else r1.2
  match line with
  | none => .ok (r1.1, ctxB)
  | some l => do
    let ctxC := { ctxB with lines := (l :: ctxB.lines).take 100
                            linenum := ctxB.linenum + 1 }
    let r2 ← newEventsLoop l finishEvents ctxC.searchEventTypes ctxC
    .ok (r1.1 ++ r2.1, { r2.2 with numProcessedLines := r2.2.numProcessedLines + 1 })

/-- Line-stream driver of LogSource.search: feeds each line, then the
end-of-file sentinel, through checkLine with the default boundary-wait
behavior, concatenating the yielded events. -/
def SearchContext.runLines (ctx : SearchContext) :
    List (Option String) → Except String (List Event × SearchContext)
  | [] => .ok ([], ctx)
  | l :: rest => do
    let r1 ← ctx.checkLine l true
    let r2 ← SearchContext.runLines r1.2 rest
    .ok (r1.1 ++ r2.1, r2.2)

/-- Character comparison, optionally case-insensitive (the IGNORECASE
compile flag of the path filter and archive-extension patterns). -/
def ceq (ci : Bool) (a b : Char) : Bool :=
  if ci then a.toLower = b.toLower else a = b

/-- Consume a literal from the front of the input, if it is there. -/
def dropPrefixCi (ci : Bool) : List Char → List Char → Option (List Char)
  | [], cs => some cs
  | _ :: _, [] => none
  | p :: ps, c :: cs => if ceq ci p c then dropPrefixCi ci ps cs else none

/-- Small regex AST sufficient for the path-level patterns of the
discovery walker: literals, concatenation, prioritized alternation,
named groups and the end-of-input anchor of the archive-extension
pattern. -/
inductive Rex where
  | lit : String → Rex
  | eol : Rex
  | grp : String → Rex → Rex
  | cat : Rex → Rex → Rex
  | alt : Rex → Rex → Rex

/-- Names of all groups of a pattern, in syntactic order (the groupdict
key set). -/
def Rex.groupNames : Rex → List String
  | .lit _ => []
  | .eol => []
  | .grp n r => n :: Rex.groupNames r
  | .cat a b => Rex.groupNames a ++ Rex.groupNames b
  | .alt a b => Rex.groupNames a ++ Rex.groupNames b

/-- Candidate continuations of a match attempt at the current position,
in backtracking priority order: each carries the unconsumed rest and the
participating groups with their captured text.  The head of the list is
the match Python picks. -/
def rexMatches (ci : Bool) : Rex → List Char → List (List Char × List (String × String))
  | .lit s, cs =>
    match dropPrefixCi ci s.data cs with
    | some rest => [(rest, [])]
    | none => []
  | .eol, cs => if cs = [] then [(cs, [])] else []
  | .grp n r, cs =>
    (rexMatches ci r cs).map
      (fun rg => (rg.1, rg.2 ++ [(n, String.mk (cs.take (cs.length - rg.1.length)))]))
  | .cat a b, cs =>
    (rexMatches ci a cs).flatMap
      (fun rg => (rexMatches ci b rg.1).map (fun rg2 => (rg2.1, rg.2 ++ rg2.2)))
  | .alt a b, cs => rexMatches ci a cs ++ rexMatches ci b cs

/-- Anchored match attempt at a given offset, yielding the span and the
full groupdict (absent groups carry none). -/
def rexMatchAt (ci : Bool) (r : Rex) (cs : List Char) (startPos : Nat) :
    Option MatchRes :=
  match rexMatches ci r cs with
  | [] => none
  | rg :: _ =>
    some { spanStart := startPos
           spanStop := startPos + (cs.length - rg.1.length)
           groups := (Rex.groupNames r).map (fun n => (n, dictGet rg.2 n)) }

/-- Python re.match: the match is anchored at the start of the string. -/
def pyMatch (ci : Bool) (r : Rex) (s : String) : Option MatchRes :=
  rexMatchAt ci r s.data 0

/-- Scan loop of re.search: the leftmost offset admitting a match. -/
def pySearchAux (ci : Bool) (r : Rex) : List Char → Nat → Option MatchRes
  | cs, pos =>
    match rexMatchAt ci r cs pos with
    | some m => some m
    | none =>
      match cs with
      | [] => none
      | _ :: rest => pySearchAux ci r rest (pos + 1)

/-- Python re.search: tries every offset from the left. -/
def pySearch (ci : Bool) (r : Rex) (s : String) : Option MatchRes :=
  pySearchAux ci r s.data 0

/-- Normalization of a pseudo-path to forward slashes. -/
def normPseudoPath (path : String) : String :=
  String.mk (path.data.map (fun c => if c = '\\' then '/' else c))

/-- LogSet.checkPathFilter: anchored, case-insensitive match of the path
filter against the normalized pseudo-path; a match yields its
(possibly empty) named-group dictionary, a non-match yields none. -/
def checkPathFilter (pathFilter : Rex) (path : String) :
    Option (List (String × Option String)) :=
  match pyMatch true pathFilter (normPseudoPath path) with
  | some m => some m.groups
  | none => none

/-- Candidate archive content as seen through the two open attempts: the
first component is the result of trying to open it as a (compressed or
plain) tar stream, the second of trying zip; none models an open
failure, and an opened archive lists its entries (name and nested
content).  Entry metadata (times, sizes) is not consulted by the scan
control flow and is omitted. -/
inductive Blob where
  | mk : Option (List (String × Blob)) → Option (List (String × Blob)) → Blob

/-- Result of the tar open attempt. -/
def Blob.tarView : Blob → Option (List (String × Blob))
  | .mk t _ => t

/-- Result of the zip open attempt. -/
def Blob.zipView : Blob → Option (List (String × Blob))
  | .mk _ z => z

/-- Log source produced by the archive branch of scanPath: kind, archive
pseudo-path, and the registered entries with their path-filter fields. -/
structure LogSrc where
  kind : String
  path : String
  logs : List (String × List (String × Option String))
  deriving DecidableEq

/-- Accumulator of the entry loop of scanPath: the count of registered
files, the log sources appended by nested scans, the names already
registered in this archive, and the entries registered into the current
source. -/
structure ScanAcc where
  res : Nat
  sources : List LogSrc
  addedNames : List String
  logs : List (String × List (String × Option String))
  deriving DecidableEq

/-- LogSet.scanPath, archive branch (a path or an open nested handle):
first attempts to open the candidate as tar, on failure as zip, and on
failure of both returns zero registered files and no sources, silently.
An opened archive iterates its entries: a path-filter match registers
the entry unless its name was already registered, otherwise an
archive-extension match recurses into the entry; the source is kept only
when it registered at least one file, after the sources of nested scans.
The fuel argument bounds the nesting depth and exceeds it in every use
below. -/
def scanPath : Nat → Rex → Rex → String → Blob → Nat × List LogSrc
  | 0, _, _, _, _ => (0, [])
  | fuel + 1, pf, arx, path, b =>
    let emptyAcc : ScanAcc := { res := 0, sources := [], addedNames := [], logs := [] }
    let step : ScanAcc → String × Blob → ScanAcc := fun acc e =>
      let fullpath := pathJoin path e.1
      match checkPathFilter pf fullpath with
      | some fields =>
        if acc.addedNames.contains e.1 then acc
        else { acc with res := acc.res + 1
                        addedNames := acc.addedNames ++ [e.1]
                        logs := acc.logs ++ [(e.1, fields)] }
      | none =>
        if (pySearch true arx fullpath).isSome then
          let sub := scanPath fuel pf arx fullpath e.2
          { acc with res := acc.res + sub.1
                     sources := acc.sources ++ sub.2 }
        else acc
    let finish : String → List (String × Blob) → Nat × List LogSrc := fun kind es =>
      let final := es.foldl step emptyAcc
      if final.logs.length > 0 then
        (final.res, final.sources ++ [{ kind := kind, path := path, logs := final.logs }])
      else (final.res, final.sources)
    match Blob.tarView b with
    | some es => finish "TAR" es
    | none =>
      match Blob.zipView b with
      | some es => finish "ZIP" es
      | none => (0, [])

/-- Entry-processing step of the scanPath loop, named for the statements
about it; scanPath at positive fuel folds exactly this step over the
entries of the opened archive. -/
def scanEntryStep (fuel : Nat) (pf arx : Rex) (path : String)
    (acc : ScanAcc) (e : String × Blob) : ScanAcc :=
  let fullpath := pathJoin path e.1
  match checkPathFilter pf fullpath with
  | some fields =>
    if acc.addedNames.contains e.1 then acc
    else { acc with res := acc.res + 1
                    addedNames := acc.addedNames ++ [e.1]
                    logs := acc.logs ++ [(e.1, fields)] }
  | none =>
    if (pySearch true arx fullpath).isSome then
      let sub := scanPath fuel pf arx fullpath e.2
      { acc with res := acc.res + sub.1
                 sources := acc.sources ++ sub.2 }
    else acc

/-- Event type whose patterns never match, for store-level scenarios. -/
def inertType (name : String) : EventType :=
  { name := name
    description := "N/A"
    multilineCount := 1
    caseSensitive := false
    immediate := false
    displayOnMatch := none
    displayIfChanged := false
    searchFilenameFn := fun _ => none
    searchTextFn := fun _ => none
    searchTimestampFn := fun _ => none }

/-- Placeholder event for total extraction of optional results. -/
def dummyEvent : Event := Event.init (inertType "T") ""

/-- First line of the two-line window scenario. -/
def c1Line1 : String := "ERROR start"

/-- Second line of the two-line window scenario, carrying the timestamp. -/
def c1Line2 : String := "2024-01-02 10:00:00 continuation"

/-- Two-line window string as assembled by getMultiline. -/
def c1Combined : String := c1Line1 ++ "\n" ++ c1Line2

/-- Timestamp groups captured on the second line. -/
def c1TsGroups : List (String × Option String) :=
  [("_Y", some "2024"), ("_M", some "01"), ("_D", some "02"),
   ("_h", some "10"), ("_m", some "00"), ("_s", some "00")]

/-- Window-size-2 event type of the scenario: the text pattern matches
exactly the combined two-line window, the timestamp pattern matches only
the second line. -/
def c1EventType : EventType :=
  { name := "E2"
    description := "N/A"
    multilineCount := 2
    caseSensitive := false
    immediate := false
    displayOnMatch := none
    displayIfChanged := false
    searchFilenameFn := fun _ => some ⟨0, 0, []⟩
    searchTextFn := fun s =>
      if s = c1Combined then some ⟨0, c1Combined.length, []⟩ else none
    searchTimestampFn := fun s =>
      if s = c1Line2 then some ⟨0, 19, c1TsGroups⟩ else none }

/-- Search state after checkSource on the scenario file. -/
def c1Context : SearchContext :=
  (SearchContext.checkSource
    (mkSearchContext 0 [("E2", c1EventType)] true 2026)
    "dir/test.log" (some ⟨2024, 1, 2, 0, 0, 0⟩)).2

/-- Full run of the two-line file followed by the end-of-file sentinel. -/
def c1Run : Except String (List Event × SearchContext) :=
  SearchContext.runLines c1Context [some c1Line1, some c1Line2, none]

/-- Events finalized by the scenario run. -/
def c1Events : List Event :=
  match c1Run with
  | .ok r => r.1
  | .error _ => []

/-- Timestamp used by the strictly-earlier query scenario. -/
def c2Time : DateTime := ⟨2024, 1, 2, 10, 0, 0⟩

/-- Event carrying exactly that timestamp. -/
def c2Seed : Event :=
  Event.setTimestamp (Event.init (inertType "T") "a.log") (some c2Time)

/-- Store holding the single event. -/
def c2Store : EventSet :=
  match (mkEventSet ["T"]).add_event c2Seed with
  | .ok r => r.1
  | .error _ => mkEventSet ["T"]

/-- Events yielded by a query whose bound equals the stored timestamp. -/
def c2QueryEvents : List Event :=
  match EventSet.get_events c2Store none none (some (BeforeArg.ts c2Time)) 0 with
  | .ok l => l
  | .error _ => []

/-- Later bound used by the witness query. -/
def c2WTime : DateTime := ⟨2030, 1, 1, 0, 0, 0⟩

/-- Events yielded by the witness query. -/
def c2WEvents : List Event :=
  match EventSet.get_events c2Store none none (some (BeforeArg.ts c2WTime)) 0 with
  | .ok l => l
  | .error _ => []

/-- Store with two events at distinct timestamps. -/
def c3Store : EventSet :=
  match (mkEventSet ["T"]).add_event
          (Event.setTimestamp (Event.init (inertType "T") "a.log")
            (some ⟨2024, 1, 1, 0, 0, 0⟩)) with
  | .ok r =>
    match r.1.add_event
            (Event.setTimestamp (Event.init (inertType "T") "a.log")
              (some ⟨2024, 1, 2, 0, 0, 0⟩)) with
    | .ok rB => rB.1
    | .error _ => r.1
  | .error _ => mkEventSet ["T"]

/-- Reference event of the witness query: the last stored event. -/
def c3RefEvent : Event := c3Store.sequence.getLast?.getD dummyEvent

/-- Events yielded by the witness query before the reference event. -/
def c3QueryEvents : List Event :=
  match EventSet.get_events c3Store none none
          (some (BeforeArg.ev c3RefEvent)) 0 with
  | .ok l => l
  | .error _ => []

/-- First insertion of the sequence-number witness. -/
def c4Add1 : EventSet × Event :=
  match (mkEventSet ["T"]).add_event c2Seed with
  | .ok r => r
  | .error _ => (mkEventSet ["T"], dummyEvent)

/-- Second insertion of the sequence-number witness. -/
def c4Add2 : EventSet × Event :=
  match c4Add1.1.add_event c2Seed with
  | .ok r => r
  | .error _ => (mkEventSet ["T"], dummyEvent)

/-- Store with two events sharing one timestamp, for the stability
witness. -/
def c4Store : EventSet := c4Add2.1

/-- Timestamp-bearing event type returning a fixed groupdict. -/
def c5Type (groups : List (String × Option String)) : EventType :=
  { inertType "C5" with searchTimestampFn := fun _ => some ⟨0, 1, groups⟩ }

/-- Run of parseTimestamp over a fixed groupdict. -/
def c5Parse (groups : List (String × Option String)) :
    Except (Event × String) Event :=
  Event.parseTimestamp (Event.init (c5Type groups) "f.log") (c5Type groups)
    (some "x") none 2026

/-- Month resolved by a parse, if it succeeded. -/
def c5Month (groups : List (String × Option String)) : Option Nat :=
  match c5Parse groups with
  | .ok e => some e.timestamp.month
  | .error _ => none

/-- Year resolved by a parse, if it succeeded. -/
def c5Year (groups : List (String × Option String)) : Option Nat :=
  match c5Parse groups with
  | .ok e => some e.timestamp.year
  | .error _ => none

/-- Groupdict with the month captured as the given text. -/
def c5GroupsM (m : String) : List (String × Option String) :=
  [("_Y", some "2024"), ("_M", some m), ("_D", some "01"),
   ("_h", some "00"), ("_m", some "00")]

/-- Groupdict with the year captured as the given text. -/
def c5GroupsY (y : String) : List (String × Option String) :=
  [("_Y", some y), ("_M", some "02"), ("_D", some "01"),
   ("_h", some "00"), ("_m", some "00")]

/-- Current event of the comparison-field scenario: no account field. -/
def c6Event : Event := Event.init (inertType "X") "f.log"

/-- Store knowing the LOGIN event type, with no events. -/
def c6Events : EventSet := mkEventSet ["LOGIN"]

/-- Template whose lookup condition names an absent comparison field. -/
def c6Template : String := "{code@LOGIN:user=account}"

/-- Candidate archive that both open attempts reject. -/
def deadBlob : Blob := Blob.mk none none

/-- Groupdict of the text match whose group names collide with the raw
system field and the flat virtual field. -/
def c10Groups : List (String × Option String) :=
  [("_raw", some "USR"), ("_flat", some "USERFLAT")]

/-- Event whose parseText installed the colliding groups wholesale. -/
def c10Event : Event :=
  match Event.parseText
          (Event.setRaw (Event.init (inertType "X") "f.log") "SYS\nTEXT")
          (inertType "X") (some ⟨0, 0, c10Groups⟩) with
  | .ok e => e
  | .error _ => dummyEvent


/-- Irreflexivity of the timestamp order. -/
theorem dtLtP_irrefl (a : DateTime) : ¬ dtLtP a a := by
  unfold dtLtP; omega

/-- Transitivity of the timestamp order. -/
theorem dtLtP_trans {a b c : DateTime} (h1 : dtLtP a b) (h2 : dtLtP b c) :
    dtLtP a c := by
  unfold dtLtP at h1 h2 ⊢; omega

/-- Two timestamps not ordered either way are equal. -/
theorem dt_eq_of_not_lt {a b : DateTime} (h1 : ¬ dtLtP a b)
    (h2 : ¬ dtLtP b a) : a = b := by
  cases a; cases b
  unfold dtLtP at h1 h2
  simp only [DateTime.mk.injEq]
  simp only at h1 h2
  omega

/-- Totality of the chronological comparison. -/
theorem eventLe_total (a b : Event) : eventLe a b || eventLe b a := by
  unfold eventLe dtLt
  by_cases hab : dtLtP a.timestamp b.timestamp
  · simp [hab]
  · by_cases hba : dtLtP b.timestamp a.timestamp
    · simp [hba]
    · have he := dt_eq_of_not_lt hab hba
      rcases Int.le_total a.seqnum b.seqnum with h | h <;> simp [he, hab, hba, h]

/-- Transitivity of the chronological comparison. -/
theorem eventLe_trans (a b c : Event) (h1 : eventLe a b) (h2 : eventLe b c) :
    eventLe a c := by
  unfold eventLe dtLt at h1 h2 ⊢
  simp only [Bool.or_eq_true, Bool.and_eq_true, decide_eq_true_eq, beq_iff_eq] at h1 h2 ⊢
  rcases h1 with h1 | ⟨h1e, h1s⟩ <;> rcases h2 with h2 | ⟨h2e, h2s⟩
  · exact Or.inl (dtLtP_trans h1 h2)
  · exact Or.inl (h2e ▸ h1)
  · exact Or.inl (h1e ▸ h2)
  · exact Or.inr ⟨h1e.trans h2e, Int.le_trans h1s h2s⟩

/-- The stable insert is a permutation of consing the element. -/
theorem stInsert_perm {α : Type} (le : α → α → Bool) (e : α) (l : List α) :
    (stInsert le e l).Perm (e :: l) := by
  induction l with
  | nil => simp [stInsert]
  | cons x xs ih =>
    by_cases h : le e x
    · simp [stInsert, h]
    · simp only [stInsert, if_neg h]
      exact (ih.cons x).trans (List.Perm.swap e x xs)

/-- The stable sort is a permutation of its input. -/
theorem stableSort_perm {α : Type} (le : α → α → Bool) (l : List α) :
    (stableSort le l).Perm l := by
  induction l with
  | nil => simp [stableSort]
  | cons x xs ih =>
    exact (stInsert_perm le x (stableSort le xs)).trans (ih.cons x)

/-- The stable insert preserves sortedness for a total transitive
comparison. -/
theorem stInsert_pairwise {α : Type} (le : α → α → Bool)
    (htot : ∀ a b, le a b || le b a)
    (htr : ∀ a b c, le a b = true → le b c = true → le a c = true)
    (e : α) (l : List α) (h : l.Pairwise (fun a b => le a b = true)) :
    (stInsert le e l).Pairwise (fun a b => le a b = true) := by
  induction l with
  | nil => simp [stInsert]
  | cons x xs ih =>
    rcases List.pairwise_cons.mp h with ⟨hx, hxs⟩
    by_cases hle : le e x
    · simp only [stInsert, if_pos hle]
      refine List.pairwise_cons.mpr ⟨?_, h⟩
      intro y hy
      rcases List.mem_cons.mp hy with rfl | hy
      · exact hle
      · exact htr _ _ _ hle (hx y hy)
    · simp only [stInsert, if_neg hle]
      refine List.pairwise_cons.mpr ⟨?_, ih hxs⟩
      intro y hy
      have hy2 : y ∈ e :: xs := (stInsert_perm le e xs).mem_iff.mp hy
      rcases List.mem_cons.mp hy2 with rfl | hy2
      · have := htot y x
        simp only [hle, Bool.false_or] at this
        exact this
      · exact hx y hy2

/-- The stable sort sorts, for a total transitive comparison. -/
theorem stableSort_pairwise {α : Type} (le : α → α → Bool)
    (htot : ∀ a b, le a b || le b a)
    (htr : ∀ a b c, le a b = true → le b c = true → le a c = true)
    (l : List α) :
    (stableSort le l).Pairwise (fun a b => le a b = true) := by
  induction l with
  | nil => simp [stableSort]
  | cons x xs ih => exact stInsert_pairwise le htot htr x (stableSort le xs) ih

/-- Every event yielded by the collection loop passes the filter. -/
theorem collectMatches_mem (p : Event → Bool) (limit : Nat) :
    ∀ (l : List Event) (num : Nat) (e : Event),
      e ∈ collectMatches p limit l num → p e = true := by
  intro l
  induction l with
  | nil => intro num e he; simp [collectMatches] at he
  | cons x xs ih =>
    intro num e he
    unfold collectMatches at he
    by_cases hp : p x
    · simp only [if_pos hp] at he
      by_cases hl : num + 1 = limit
      · simp only [if_pos hl, List.mem_singleton] at he
        exact he ▸ hp
      · simp only [if_neg hl, List.mem_cons] at he
        rcases he with rfl | he
        · exact hp
        · exact ih _ e he
    · simp only [if_neg hp] at he
      exact ih _ e he

/-- Renumbering assigns consecutive sequence numbers from the start. -/
theorem renumberFrom_map_seqnum (l : List Event) :
    ∀ i : Int, (renumberFrom i l).map Event.seqnum =
      (List.range l.length).map (fun k : Nat => i + (k : Int)) := by
  induction l with
  | nil => intro i; simp [renumberFrom]
  | cons e rest ih =>
    intro i
    simp only [renumberFrom, List.map_cons, List.length_cons,
      List.range_succ_eq_map, List.map_map]
    refine List.cons_eq_cons.mpr ⟨by simp [Event.setSeqnum], ?_⟩
    rw [ih (i + 1)]
    apply List.map_congr_left
    intro k _
    simp only [Function.comp_apply]
    push_cast
    omega

/-- Renumbering keeps every timestamp. -/
theorem renumberFrom_map_timestamp (l : List Event) :
    ∀ i : Int, (renumberFrom i l).map Event.timestamp = l.map Event.timestamp := by
  induction l with
  | nil => intro i; simp [renumberFrom]
  | cons e rest ih =>
    intro i
    simp only [renumberFrom, List.map_cons, ih (i + 1)]
    rfl

/-- Flattening the per-type sorts permutes flattening the lists. -/
theorem flatten_sorted_perm (L : List (String × List Event)) :
    ((L.map (fun kv => stableSort eventLe kv.2)).flatten).Perm
      ((L.map (fun kv => kv.2)).flatten) := by
  induction L with
  | nil => simp
  | cons kv rest ih =>
    simp only [List.map_cons, List.flatten_cons]
    exact (stableSort_perm eventLe kv.2).append ih

/-- A digit character is not Python whitespace. -/
theorem isDig_not_pySpace (c : Char) (h : isDig c = true) : isPySpace c = false := by
  unfold isDig at h
  simp only [decide_eq_true_eq] at h
  unfold isPySpace
  apply decide_eq_false
  intro hcon
  rcases hcon with h1 | h1 | h1 | h1 | h1 | h1 <;> subst h1 <;>
    exact absurd h (by decide)

/-- Stripping whitespace leaves an all-digit string unchanged. -/
theorem stripChars_all_digits (cs : List Char) (hd : cs.all isDig = true) :
    stripChars cs = cs := by
  unfold stripChars
  have h1 : cs.dropWhile isPySpace = cs := by
    cases cs with
    | nil => rfl
    | cons c rest =>
      have hc : isDig c = true := by
        simp only [List.all_cons, Bool.and_eq_true] at hd; exact hd.1
      simp [List.dropWhile_cons, isDig_not_pySpace c hc]
  rw [h1]
  have h2 : cs.reverse.dropWhile isPySpace = cs.reverse := by
    cases hr : cs.reverse with
    | nil => rfl
    | cons c rest =>
      have hcmem : c ∈ cs := by
        have hm : c ∈ cs.reverse := by rw [hr]; exact List.mem_cons_self c rest
        exact List.mem_reverse.mp hm
      have hcd : isDig c = true := by
        rw [List.all_eq_true] at hd; exact hd c hcmem
      simp [List.dropWhile_cons, isDig_not_pySpace c hcd]
  rw [h2, List.reverse_reverse]

/-- Python int() of a nonempty all-digit string is its decimal value. -/
theorem pyInt_digits (cs : List Char) (hne : cs ≠ []) (hd : cs.all isDig = true) :
    pyInt (String.mk cs) = some ((digitsToNat cs : Int)) := by
  rcases cs with _ | ⟨c, rest⟩
  · exact absurd rfl hne
  · have hc : isDig c = true := by
      simp only [List.all_cons, Bool.and_eq_true] at hd; exact hd.1
    have hminus : c ≠ '-' := by
      intro h; rw [h] at hc; exact absurd hc (by decide)
    have hplus : c ≠ '+' := by
      intro h; rw [h] at hc; exact absurd hc (by decide)
    unfold pyInt
    rw [show (String.mk (c :: rest)).data = c :: rest from rfl,
        stripChars_all_digits _ hd]
    split
    next heq => injection heq with ha hb; exact absurd ha hminus
    next heq => injection heq with ha hb; exact absurd ha hplus
    next => simp [digitsVal, hd]

/-- Value bound of an all-digit string of at most two characters. -/
theorem digitsToNat_lt_100 :
    ∀ cs : List Char, cs.all isDig = true → cs.length ≤ 2 →
      digitsToNat cs < 100 := by
  intro cs hd hl
  match cs, hl with
  | [], _ => simp [digitsToNat]
  | [a], _ =>
    simp only [List.all_cons, List.all_nil, Bool.and_true] at hd
    unfold isDig at hd
    simp only [decide_eq_true_eq] at hd
    simp only [digitsToNat, List.foldl, digVal]
    omega
  | [a, b], _ =>
    simp only [List.all_cons, List.all_nil, Bool.and_true, Bool.and_eq_true] at hd
    obtain ⟨ha, hb⟩ := hd
    unfold isDig at ha hb
    simp only [decide_eq_true_eq] at ha hb
    simp only [digitsToNat, List.foldl, digVal]
    omega

/-- Every event of a successful get_events result passes the combined
match test. -/
theorem mem_get_events_matches (s : EventSet) (name : Option String)
    (fields : Option (List (String × FieldVal))) (before : Option BeforeArg)
    (limit : Nat) (l : List Event) (e : Event)
    (h : s.get_events name fields before limit = .ok l) (he : e ∈ l) :
    eventMatches name fields before e = true := by
  rcases name with _ | n
  · unfold EventSet.get_events at h
    injection h with h2
    exact collectMatches_mem _ limit _ 0 e (h2 ▸ he)
  · unfold EventSet.get_events at h
    dsimp only at h
    rcases hg : dictGet s.byName n with _ | l0
    · rw [hg] at h; exact absurd h (by simp)
    · rw [hg] at h
      injection h with h2
      exact collectMatches_mem _ limit _ 0 e (h2 ▸ he)

/-- A candidate that neither open attempt accepts registers nothing and
adds no source, for any remaining depth. -/
theorem scanPath_not_archive (fuel : Nat) (pf arx : Rex) (path : String) :
    scanPath fuel pf arx path (Blob.mk none none) = (0, []) := by
  cases fuel with
  | zero => rfl
  | succ n => rfl

/-- Unfolding of scanPath on a candidate whose tar open succeeded: the
entry loop is the fold of scanEntryStep and the zip view is never
consulted. -/
theorem scanPath_succ_tar (fuel : Nat) (pf arx : Rex) (path : String)
    (es : List (String × Blob)) (z : Option (List (String × Blob))) :
    scanPath (fuel + 1) pf arx path (Blob.mk (some es) z) =
      (let final := es.foldl (scanEntryStep fuel pf arx path)
          { res := 0, sources := [], addedNames := [], logs := [] };
       if final.logs.length > 0 then
         (final.res, final.sources ++ [{ kind := "TAR", path := path, logs := final.logs }])
       else (final.res, final.sources)) := rfl

/-- An entry that fails the path filter and both open attempts leaves the
scan state untouched. -/
theorem scanEntryStep_dead (fuel : Nat) (pf arx : Rex) (path : String)
    (acc : ScanAcc) (name : String)
    (h : checkPathFilter pf (pathJoin path name) = none) :
    scanEntryStep fuel pf arx path acc (name, Blob.mk none none) = acc := by
  unfold scanEntryStep
  dsimp only
  rw [h, scanPath_not_archive]
  by_cases hs : (pySearch true arx (pathJoin path name)).isSome
  · simp [hs]
  · simp [hs]

/-- Removing such an entry from the loop does not change the fold. -/
theorem foldl_scanStep_skip (fuel : Nat) (pf arx : Rex) (path name : String)
    (l1 l2 : List (String × Blob)) (acc : ScanAcc)
    (h : checkPathFilter pf (pathJoin path name) = none) :
    (l1 ++ (name, Blob.mk none none) :: l2).foldl
        (scanEntryStep fuel pf arx path) acc =
      (l1 ++ l2).foldl (scanEntryStep fuel pf arx path) acc := by
  rw [List.foldl_append, List.foldl_append, List.foldl_cons,
      scanEntryStep_dead fuel pf arx path _ name h]

/-- Claim C1 (corrected), counterexample: with a window-size-2 event type
on the two-line file whose line 1 is "ERROR start" and line 2 is
"2024-01-02 10:00:00 continuation", where the text pattern matches the
combined window and only line 2 matches the timestamp pattern, the run
finalizes exactly one event whose raw text is line 2 alone, and line 1
does not occur in it — the raw text does not contain both lines. -/
theorem c1_counterexample :
    c1Events.map (fun e => dictGet e.sfields "_raw") = [some (some c1Line2)] ∧
    hasSubstr c1Line1.data c1Line2.data = false := by decide

/-- Claim C1 (corrected), amended statement: the finalized event spans
only the backlog lines from the timestamp line onward, so its raw text
is exactly line 2, and its stored line number is the counter minus the
span length plus one, here the string "0". -/
theorem c1_amended :
    c1Events.map (fun e => dictGet e.sfields "_raw") = [some (some c1Line2)] ∧
    c1Events.map (fun e => dictGet e.sfields "_line_number") = [some (some "0")] := by
  decide

/-- Claim C2 (corrected), counterexample: a store holding one event and a
query whose before bound is a timestamp equal to that event returns the
event — an event whose timestamp equals the bound is yielded. -/
theorem c2_counterexample :
    (EventSet.get_events c2Store none none (some (BeforeArg.ts c2Time)) 0).map
        (fun l => l.map Event.timestamp) = .ok [c2Time] := by decide

/-- Claim C2 (corrected), amended statement: every event yielded by
get_events with a timestamp bound has a timestamp no later than the
bound; only strictly later events are excluded, so equality is allowed. -/
theorem c2_theorem :
    ∀ (s : EventSet) (name : Option String)
      (fields : Option (List (String × FieldVal))) (t : DateTime)
      (limit : Nat) (l : List Event) (e : Event),
      s.get_events name fields (some (BeforeArg.ts t)) limit = .ok l →
      e ∈ l → ¬ dtLtP t e.timestamp := by
  intro s name fields t limit l e h he
  have hm := mem_get_events_matches s name fields (some (BeforeArg.ts t)) limit l e h he
  unfold eventMatches at hm
  simp only [Bool.and_eq_true] at hm
  have hb := hm.2
  unfold beforeExcludes at hb
  simp only [Bool.not_eq_true', dtLt, decide_eq_false_iff_not] at hb
  exact hb

/-- Witness for the amended C2 statement at a concrete query. -/
theorem c2_witness :
    ¬ dtLtP c2WTime ((c2WEvents.headD dummyEvent).timestamp) :=
  c2_theorem c2Store none none c2WTime 0 c2WEvents
    (c2WEvents.headD dummyEvent) (by decide) (by decide)

/-- Claim C3: with an event reference as the before bound, get_events
yields only events with a strictly smaller sequence number, and so does
the event returned by get_event; the reference itself, and any event
with an equal or greater sequence number, is never yielded. -/
theorem c3_theorem :
    (∀ (s : EventSet) (name : Option String)
        (fields : Option (List (String × FieldVal))) (A : Event)
        (limit : Nat) (l : List Event) (e : Event),
        s.get_events name fields (some (BeforeArg.ev A)) limit = .ok l →
        e ∈ l → e.seqnum < A.seqnum) ∧
    (∀ (s : EventSet) (name : Option String)
        (fields : Option (List (String × FieldVal))) (A : Event) (e : Event),
        s.get_event name fields (some (BeforeArg.ev A)) = .ok (some e) →
        e.seqnum < A.seqnum) := by
  constructor
  · intro s name fields A limit l e h he
    have hm := mem_get_events_matches s name fields (some (BeforeArg.ev A)) limit l e h he
    unfold eventMatches at hm
    simp only [Bool.and_eq_true] at hm
    have hb := hm.2
    unfold beforeExcludes at hb
    simp only [Bool.not_eq_true', Bool.or_eq_false_iff,
      decide_eq_false_iff_not] at hb
    omega
  · intro s name fields A e h
    unfold EventSet.get_event at h
    rcases hq : s.get_events name fields (some (BeforeArg.ev A)) 1 with m | l
    · rw [hq] at h; exact absurd h (by simp [Except.map])
    · rw [hq] at h
      simp only [Except.map, Except.ok.injEq] at h
      rcases l with _ | ⟨x, rest⟩
      · exact absurd h (by simp)
      · simp only [List.head?] at h
        injection h with h2
        have hm := mem_get_events_matches s name fields
          (some (BeforeArg.ev A)) 1 (x :: rest) x hq (List.mem_cons_self x rest)
        unfold eventMatches at hm
        simp only [Bool.and_eq_true] at hm
        have hb := hm.2
        unfold beforeExcludes at hb
        simp only [Bool.not_eq_true', Bool.or_eq_false_iff,
          decide_eq_false_iff_not] at hb
        rw [← h2]
        omega

/-- Witness for C3 at a two-event store. -/
theorem c3_witness :
    (c3QueryEvents.headD dummyEvent).seqnum < c3RefEvent.seqnum :=
  c3_theorem.1 c3Store none none c3RefEvent 0 c3QueryEvents
    (c3QueryEvents.headD dummyEvent) (by decide) (by decide)

/-- Claim C4: add_event stamps the running counter and increments it by
exactly one per insertion; sortEvents rebuilds the flat sequence as a
permutation of the stored events sorted by (timestamp, sequence number)
ascending — so events with equal timestamps keep their relative sequence
order — and then reassigns sequence numbers 0..N-1 along the new order,
keeping every timestamp in place. -/
theorem c4_theorem :
    (∀ (s s1 s2 : EventSet) (e1 e2 f1 f2 : Event),
        s.add_event e1 = .ok (s1, f1) → s1.add_event e2 = .ok (s2, f2) →
        f1.seqnum = s.curSeqnum ∧ f2.seqnum = f1.seqnum + 1) ∧
    (∀ s : EventSet,
        (EventSet.sortPre s).Perm ((s.byName.map (fun kv => kv.2)).flatten) ∧
        (s.sortEvents).2.map Event.seqnum =
          (List.range (EventSet.sortPre s).length).map (fun k : Nat => (k : Int)) ∧
        (s.sortEvents).2.map Event.timestamp =
          (EventSet.sortPre s).map Event.timestamp ∧
        (EventSet.sortPre s).Pairwise (fun a b => eventLe a b = true) ∧
        (∀ (i j : Nat) (hi : i < (EventSet.sortPre s).length)
            (hj : j < (EventSet.sortPre s).length), i < j →
            ((EventSet.sortPre s).get ⟨i, hi⟩).timestamp =
              ((EventSet.sortPre s).get ⟨j, hj⟩).timestamp →
            ((EventSet.sortPre s).get ⟨i, hi⟩).seqnum ≤
              ((EventSet.sortPre s).get ⟨j, hj⟩).seqnum)) := by
  constructor
  · intro s s1 s2 e1 e2 f1 f2 h1 h2
    unfold EventSet.add_event at h1 h2
    dsimp only at h1 h2
    rcases hg1 : dictGet s.byName (Event.setSeqnum e1 s.curSeqnum).etName with _ | l1
    · rw [hg1] at h1; exact absurd h1 (by simp)
    · rw [hg1] at h1
      injection h1 with h1
      injection h1 with hs1 hf1
      rcases hg2 : dictGet s1.byName (Event.setSeqnum e2 s1.curSeqnum).etName with _ | l2
      · rw [hg2] at h2; exact absurd h2 (by simp)
      · rw [hg2] at h2
        injection h2 with h2
        injection h2 with hs2 hf2
        constructor
        · rw [← hf1]
          rfl
        · rw [← hf2, ← hf1]
          show s1.curSeqnum = s.curSeqnum + 1
          rw [← hs1]
  · intro s
    refine ⟨?_, ?_, ?_, ?_, ?_⟩
    · exact (stableSort_perm eventLe _).trans (flatten_sorted_perm s.byName)
    · show (renumberFrom 0 (EventSet.sortPre s)).map Event.seqnum = _
      rw [renumberFrom_map_seqnum]
      apply List.map_congr_left
      intro k _
      omega
    · show (renumberFrom 0 (EventSet.sortPre s)).map Event.timestamp = _
      rw [renumberFrom_map_timestamp]
    · exact stableSort_pairwise eventLe eventLe_total eventLe_trans _
    · intro i j hi hj hij hts
      have hp : (EventSet.sortPre s).Pairwise (fun a b => eventLe a b = true) :=
        stableSort_pairwise eventLe eventLe_total eventLe_trans _
      have hle := List.pairwise_iff_getElem.mp hp i j hi hj hij
      simp only [List.get_eq_getElem] at hts ⊢
      unfold eventLe at hle
      simp only [Bool.or_eq_true, Bool.and_eq_true, beq_iff_eq,
        decide_eq_true_eq, dtLt] at hle
      rcases hle with hlt | hle2
      · exact absurd (hts ▸ hlt) (dtLtP_irrefl _)
      · exact hle2.2

set_option maxRecDepth 10000 in
/-- Witness for C4: consecutive insertions receive 0 then 1, and after
sorting a store with two equal-timestamp events the earlier sequence
number stays first. -/
theorem c4_witness :
    ((c4Add1.2.seqnum = (mkEventSet ["T"]).curSeqnum ∧
      c4Add2.2.seqnum = c4Add1.2.seqnum + 1) ∧
     ((EventSet.sortPre c4Store).get ⟨0, by decide⟩).seqnum ≤
       ((EventSet.sortPre c4Store).get ⟨1, by decide⟩).seqnum) :=
  ⟨c4_theorem.1 (mkEventSet ["T"]) c4Add1.1 c4Add2.1 c2Seed c2Seed
     c4Add1.2 c4Add2.2 (by decide) (by decide),
   (c4_theorem.2 c4Store).2.2.2.2 0 1 (by decide) (by decide) (by decide)
     (by decide)⟩

/-- Claim C5: a month captured as Feb and as 02 both resolve to month 2 —
a value of at most two characters parses numerically, a longer value by
case-insensitive match of its first three letters against the English
month abbreviations — and a year of at most two digits has 2000 added,
so 16 resolves to 2016 and 99 to 2099, never 1999. -/
theorem c5_theorem :
    c5Month (c5GroupsM "Feb") = some 2 ∧
    c5Month (c5GroupsM "02") = some 2 ∧
    (∀ m : String, m.length ≤ 2 → monthOfField m = pyIntE m) ∧
    (∀ m : String, 2 < m.length →
        (m.data.take 3).map Char.toUpper = "FEB".data →
        monthOfField m = .ok 2) ∧
    c5Year (c5GroupsY "16") = some 2016 ∧
    c5Year (c5GroupsY "99") = some 2099 ∧
    c5Year (c5GroupsY "99") ≠ some 1999 ∧
    (∀ cs : List Char, cs ≠ [] → cs.all isDig = true → cs.length ≤ 2 →
        pyInt (String.mk cs) = some ((digitsToNat cs : Int)) ∧
        yearOfField ((digitsToNat cs : Int)) = (digitsToNat cs : Int) + 2000) := by
  refine ⟨by decide, by decide, ?_, ?_, by decide, by decide, by decide, ?_⟩
  · intro m hm
    unfold monthOfField
    rw [if_pos hm]
  · intro m hm hfeb
    unfold monthOfField
    rw [if_neg (by omega)]
    rw [hfeb]
    rfl
  · intro cs hne hd hl
    refine ⟨pyInt_digits cs hne hd, ?_⟩
    unfold yearOfField
    rw [if_pos]
    exact_mod_cast Nat.lt_of_lt_of_le (digitsToNat_lt_100 cs hd hl) (by omega)

/-- Witness for the general rules of C5 at concrete inputs. -/
theorem c5_witness :
    monthOfField "12" = pyIntE "12" ∧
    monthOfField "february" = .ok 2 ∧
    pyInt (String.mk ['9', '9']) = some ((digitsToNat ['9', '9'] : Int)) ∧
    yearOfField ((digitsToNat ['9', '9'] : Int)) =
      (digitsToNat ['9', '9'] : Int) + 2000 :=
  ⟨c5_theorem.2.2.1 "12" (by decide),
   c5_theorem.2.2.2.1 "february" (by decide) (by decide),
   (c5_theorem.2.2.2.2.2.2.2 ['9', '9'] (by decide) (by decide) (by decide)).1,
   (c5_theorem.2.2.2.2.2.2.2 ['9', '9'] (by decide) (by decide) (by decide)).2⟩

/-- Claim C6 (code bug): rendering the conditional-lookup placeholder
when the current event lacks the comparison field substitutes a
diagnostic and never raises, but the diagnostic names the lookup target
field (code), not the comparison field (account) the claim and the
message label announce. -/
theorem c6_theorem :
    Event.replaceFields c6Event c6Template c6Events =
      .ok ("COMPARISON FIELD " ++ pyQuote ++ "code" ++ pyQuote ++ " NOT FOUND") ∧
    ("COMPARISON FIELD " ++ pyQuote ++ "code" ++ pyQuote ++ " NOT FOUND" : String) ≠
      ("COMPARISON FIELD " ++ pyQuote ++ "account" ++ pyQuote ++ " NOT FOUND") := by
  decide

/-- Claim C7: the path filter is matched anchored at the start of the
forward-slash-normalized pseudo-path — a literal filter matches exactly
when it is a prefix of the normalized path, so a/b does not match xa/b
even though an unanchored search would — and a successful match yields
the possibly empty named-group dictionary. -/
theorem c7_theorem :
    (∀ (s path : String) (gs : List (String × Option String)),
        checkPathFilter (Rex.lit s) path = some gs ↔
          (dropPrefixCi true s.data (normPseudoPath path).data).isSome = true ∧
          gs = []) ∧
    checkPathFilter (Rex.lit "a/b") "xa/b" = none ∧
    (pySearch true (Rex.lit "a/b") "xa/b").isSome = true ∧
    checkPathFilter (Rex.lit "a/b") "a/bc" = some [] ∧
    checkPathFilter (Rex.lit "a/b") "a\\bc" = some [] ∧
    checkPathFilter (Rex.grp "g" (Rex.lit "ab")) "ABc" = some [("g", some "AB")] := by
  refine ⟨?_, by decide, by decide, by decide, by decide, by decide⟩
  intro s path gs
  unfold checkPathFilter pyMatch rexMatchAt rexMatches
  rcases hdp : dropPrefixCi true s.data (normPseudoPath path).data with _ | rest
  · simp
  · simp [Rex.groupNames]

/-- Witness for the anchoring rule of C7 at a concrete filter and path. -/
theorem c7_witness :
    checkPathFilter (Rex.lit "lo") "logs/app.log" = some [] :=
  (c7_theorem.1 "lo" "logs/app.log" []).mpr ⟨by decide, rfl⟩

/-- Claim C8: a field name already present among the system fields makes
both set_field and add_field raise, and the try/except wrappers
set_fields and add_fields leave the event, hence both field
dictionaries, unchanged. -/
theorem c8_theorem :
    ∀ (e : Event) (name : String) (v : FieldVal),
      dictHas e.sfields name = true →
      Event.set_field e name v =
        .error ("Overwriting " ++ name ++ " system field not allowed") ∧
      Event.add_field e name v =
        .error ("Field " ++ name ++ " already exists") ∧
      Event.set_fields e [(name, v)] = e ∧
      Event.add_fields e [(name, v)] = e := by
  intro e name v h
  have hset : Event.set_field e name v =
      .error ("Overwriting " ++ name ++ " system field not allowed") := by
    unfold Event.set_field
    rw [if_pos h]
  have hadd : Event.add_field e name v =
      .error ("Field " ++ name ++ " already exists") := by
    unfold Event.add_field
    rw [if_pos (Or.inl h)]
  refine ⟨hset, hadd, ?_, ?_⟩
  · unfold Event.set_fields
    rw [List.foldl_cons, hset, List.foldl_nil]
  · unfold Event.add_fields
    rw [List.foldl_cons, hadd, List.foldl_nil]

/-- Witness for C8 on a freshly initialized event and its name field. -/
theorem c8_witness :
    Event.set_field dummyEvent "_name" (some "v") =
      .error ("Overwriting " ++ "_name" ++ " system field not allowed") ∧
    Event.add_field dummyEvent "_name" (some "v") =
      .error ("Field " ++ "_name" ++ " already exists") ∧
    Event.set_fields dummyEvent [("_name", some "v")] = dummyEvent ∧
    Event.add_fields dummyEvent [("_name", some "v")] = dummyEvent :=
  c8_theorem dummyEvent "_name" (some "v") (by decide)

/-- Claim C9: a candidate archive is first attempted as tar — when that
succeeds the zip view is never consulted — and on failure as zip; when
both attempts fail the candidate is skipped silently with zero files
registered and no source added, and removing such a dead entry from an
archive leaves the scan of the remaining entries unchanged. -/
theorem c9_theorem :
    (∀ (fuel : Nat) (pf arx : Rex) (path : String),
        scanPath fuel pf arx path (Blob.mk none none) = (0, [])) ∧
    (∀ (fuel : Nat) (pf arx : Rex) (path : String)
        (es : List (String × Blob)) (z1 z2 : Option (List (String × Blob))),
        scanPath fuel pf arx path (Blob.mk (some es) z1) =
          scanPath fuel pf arx path (Blob.mk (some es) z2)) ∧
    (∀ (fuel : Nat) (pf arx : Rex) (path : String)
        (zv : Option (List (String × Blob))) (l1 l2 : List (String × Blob))
        (name : String),
        checkPathFilter pf (pathJoin path name) = none →
        scanPath fuel pf arx path
            (Blob.mk (some (l1 ++ (name, Blob.mk none none) :: l2)) zv) =
          scanPath fuel pf arx path (Blob.mk (some (l1 ++ l2)) zv)) := by
  refine ⟨scanPath_not_archive, ?_, ?_⟩
  · intro fuel pf arx path es z1 z2
    cases fuel with
    | zero => rfl
    | succ n => rfl
  · intro fuel pf arx path zv l1 l2 name h
    cases fuel with
    | zero => rfl
    | succ n =>
      rw [scanPath_succ_tar, scanPath_succ_tar]
      simp only
      rw [foldl_scanStep_skip n pf arx path name l1 l2 _ h]

/-- Witness for the dead-entry rule of C9 at a concrete archive. -/
theorem c9_witness :
    scanPath 2 (Rex.lit "logs/app") (Rex.lit ".tar") "p"
        (Blob.mk (some [("bad.bin", Blob.mk none none)]) none) =
      scanPath 2 (Rex.lit "logs/app") (Rex.lit ".tar") "p"
        (Blob.mk (some []) none) :=
  c9_theorem.2.2 2 (Rex.lit "logs/app") (Rex.lit ".tar") "p" none [] []
    "bad.bin" (by decide)

/-- Claim C10: get_field consults the user fields before the system
fields and before virtual-field computation, and has_field acknowledges
any user field, so a user field installed wholesale by parseText under a
system or virtual name — here a text-pattern group called _raw and one
called _flat — shadows the system or virtual value on every subsequent
read. -/
theorem c10_theorem :
    (∀ (e : Event) (name : String) (v : FieldVal),
        dictGet e.ufields name = some v →
        Event.get_field e name = .ok v ∧ Event.has_field e name = true) ∧
    (∀ (e e2 : Event) (et : EventType) (r : MatchRes) (g : FieldVal),
        Event.parseText e et (some r) = .ok e2 →
        dictGet r.groups "_raw" = some g →
        Event.get_field e2 "_raw" = .ok g) ∧
    Event.get_field c10Event "_raw" = .ok (some "USR") ∧
    dictGet c10Event.sfields "_raw" = some (some "SYS\nTEXT") ∧
    Event.get_field c10Event "_flat" = .ok (some "USERFLAT") ∧
    Event.has_field c10Event "_raw" = true := by
  have h1 : ∀ (e : Event) (name : String) (v : FieldVal),
      dictGet e.ufields name = some v →
      Event.get_field e name = .ok v ∧ Event.has_field e name = true := by
    intro e name v h
    constructor
    · unfold Event.get_field
      rw [h]
    · unfold Event.has_field dictHas
      rw [h]
      simp
  refine ⟨h1, ?_, by decide, by decide, by decide, by decide⟩
  intro e e2 et r g hp hg
  unfold Event.parseText at hp
  injection hp with hp
  exact (h1 e2 "_raw" g (by rw [← hp]; exact hg)).1

/-- Witness for the shadowing rule of C10 at the colliding event. -/
theorem c10_witness :
    Event.get_field c10Event "_raw" = .ok (some "USR") ∧
    Event.has_field c10Event "_raw" = true :=
  c10_theorem.1 c10Event "_raw" (some "USR") (by decide)
